import Mathlib

/-!
Shallow embedding of the shipment/packaging tracker (Flask app `app.py` with
ORM models in `models.py`).

The database is modelled as lists of records (one list per table).  Python
integers become `Int`; the shared status enum `package_status` becomes the
inductive `Status`.  Each state-changing route becomes a pure function
`DB → Except Err DB`: `Except.error` models `abort(404, ...)` / `abort(400, ...)`
and `Except.ok` models a redirect (so a "silent" rejection is `.ok db` with the
database unchanged).  The externally supplied inputs (acting user id, the
generated shipment business number, the parsed form fields) are parameters;
a form field whose `int(...)` parse raises `ValueError` is modelled as `none`.
-/

/-- The shared database enum `package_status` from `models.py`
(`Enum("open", "packed", "shipped", name="package_status")`). -/
inductive Status where
  | «open»  : Status
  | packed  : Status
  | shipped : Status
deriving DecidableEq, Repr

/-- Row of table `shipment_head` (`created_at` timestamp omitted: wall-clock
is an external input never read by the core operations). -/
structure ShipmentHead where
  id : Int
  status : Status
  shipment_number : Option String
  created_by : Int
deriving DecidableEq, Repr

/-- Row of table `package_head`. -/
structure PackageHead where
  id : Int
  status : Status
  shipment_number : Option String
  created_by : Int
deriving DecidableEq, Repr

/-- Row of table `shipment_line` (composite PK `(shipment_no, line_no)`;
`package_no` carries a UNIQUE constraint in the schema). -/
structure ShipmentLine where
  shipment_no : Int
  line_no : Int
  package_no : Int
deriving DecidableEq, Repr

/-- Row of table `item`. -/
structure Item where
  id : Int
  description : String
deriving DecidableEq, Repr

/-- Row of table `stock` (1:1 with `item`). -/
structure Stock where
  item_id : Int
  quantity_on_hand : Int
deriving DecidableEq, Repr

/-- Row of table `package_line` (composite PK `(package_no, line_no)`;
schema also constrains `quantity > 0` and `(package_no, item_no)` UNIQUE). -/
structure PackageLine where
  package_no : Int
  line_no : Int
  item_no : Int
  quantity : Int
deriving DecidableEq, Repr

/-- The whole relational store: one list per table. -/
structure DB where
  shipments : List ShipmentHead
  packages : List PackageHead
  shipmentLines : List ShipmentLine
  packageLines : List PackageLine
  items : List Item
  stocks : List Stock
deriving DecidableEq, Repr

/-- Errors raised by the routes: `abort(404, msg)` and `abort(400, msg)`. -/
inductive Err where
  | notFound : String → Err
  | invalidState : String → Err
deriving DecidableEq, Repr

/-- `db.session.get(ShipmentHead, sid)`: primary-key lookup. -/
def findShipment (db : DB) (sid : Int) : Option ShipmentHead :=
  db.shipments.find? (fun sh => sh.id == sid)

/-- `db.session.get(PackageHead, pid)`: primary-key lookup. -/
def findPackage (db : DB) (pid : Int) : Option PackageHead :=
  db.packages.find? (fun p => p.id == pid)

/-- `db.session.get(Item, iid)`: primary-key lookup. -/
def findItem (db : DB) (iid : Int) : Option Item :=
  db.items.find? (fun it => it.id == iid)

/-- `db.session.get(Stock, iid)`: primary-key lookup. -/
def findStock (db : DB) (iid : Int) : Option Stock :=
  db.stocks.find? (fun st => st.item_id == iid)

/-- `select(SL.shipment_no).where(SL.package_no == pid)` followed by
`db.session.get(SH, shipment_id) if shipment_id else None` — note the Python
truthiness test: a `shipment_no` of `0` also yields `None`. -/
def packageShipment (db : DB) (pid : Int) : Option ShipmentHead :=
  match db.shipmentLines.find? (fun sl => sl.package_no == pid) with
  | none => none
  | some sl => if sl.shipment_no != 0 then findShipment db sl.shipment_no else none

/-- The second half of the edit-lock condition
`(shipment and shipment.status != "open")`. -/
def shipmentBlocks : Option ShipmentHead → Bool
  | none => false
  | some sh => sh.status != Status.«open»

/-- `COALESCE(MAX(line_no), 0)` over a list of line numbers. -/
def maxLineNo (ns : List Int) : Int := ns.foldr max 0

/-- Auto-increment primary key: fresh id for a new row. -/
def freshId (ids : List Int) : Int := maxLineNo ids + 1

/-- Route `POST /shipments/new` (`shipments_create`): inserts a new shipment
with the model defaults `status="open"`, `shipment_number=NULL`. -/
def shipments_create (uid : Int) (db : DB) : DB :=
  let sid := freshId (db.shipments.map (fun sh => sh.id))
  { db with shipments :=
      db.shipments ++ [{ id := sid, status := Status.«open»,
                         shipment_number := none, created_by := uid }] }

/-- Route `POST /shipments/<sid>/packages/new` (`shipments_add_package`):
creates a new open package and links it to the shipment with
`line_no = COALESCE(MAX(line_no), 0) + 1` over that shipment's lines. -/
def shipments_add_package (sid uid : Int) (db : DB) : Except Err DB :=
  match findShipment db sid with
  | none => .error (.notFound "Shipment not found")
  | some sh =>
    if sh.status != Status.«open» then .error (.invalidState "Shipment is not open")
    else
      let pid := freshId (db.packages.map (fun p => p.id))
      let next_line :=
        maxLineNo ((db.shipmentLines.filter (fun sl => sl.shipment_no == sh.id)).map
          (fun sl => sl.line_no)) + 1
      .ok { db with
        packages := db.packages ++
          [{ id := pid, status := Status.«open», shipment_number := none, created_by := uid }],
        shipmentLines := db.shipmentLines ++
          [{ shipment_no := sh.id, line_no := next_line, package_no := pid }] }

/-- Route `POST /shipments/<sid>/ship` (`shipments_ship`): requires status
`open`, stamps the business number `sn` (generated from the wall clock by the
caller) on the shipment and bulk-updates every linked package to
`status="shipped"`, `shipment_number=sn`. -/
def shipments_ship (sid : Int) (sn : String) (db : DB) : Except Err DB :=
  match findShipment db sid with
  | none => .error (.notFound "Shipment not found")
  | some sh =>
    if sh.status != Status.«open» then .error (.invalidState "Shipment already shipped")
    else
      let pkg_ids := (db.shipmentLines.filter (fun sl => sl.shipment_no == sh.id)).map
        (fun sl => sl.package_no)
      .ok { db with
        shipments := db.shipments.map (fun s =>
          if s.id == sh.id then { s with status := Status.shipped, shipment_number := some sn }
          else s),
        packages := db.packages.map (fun p =>
          if pkg_ids.contains p.id then
            { p with status := Status.shipped, shipment_number := some sn }
          else p) }

/-- Route `POST /shipments/<sid>/packages/<pid>/delete`
(`shipments_delete_package`): requires the shipment open and the link to
exist; deletes the found link, then deletes the package row (the ORM cascade
`all,delete-orphan` on `PackageHead.lines` also deletes its package lines). -/
def shipments_delete_package (sid pid : Int) (db : DB) : Except Err DB :=
  match findShipment db sid with
  | none => .error (.notFound "Shipment not found")
  | some sh =>
    if sh.status != Status.«open» then .error (.invalidState "Shipment is not open")
    else
      match db.shipmentLines.find? (fun sl => sl.shipment_no == sh.id && sl.package_no == pid) with
      | none => .error (.notFound "Package not linked to this shipment")
      | some _ =>
        .ok { db with
          shipmentLines :=
            db.shipmentLines.eraseP (fun sl => sl.shipment_no == sh.id && sl.package_no == pid),
          packages := db.packages.filter (fun p => p.id != pid),
          packageLines := db.packageLines.filter (fun pl => pl.package_no != pid) }

/-- Sum of `quantity` over the four-way join of `packages_add_item`:
`PL JOIN PH ON PH.id = PL.package_no JOIN SL ON SL.package_no = PH.id
JOIN SH ON SH.id = SL.shipment_no WHERE SH.status = 'open' AND PL.item_no = iid`. -/
def reserved_quantity (db : DB) (iid : Int) : Int :=
  ((db.packageLines.filter (fun pl => pl.item_no == iid)).map (fun pl =>
    ((db.packages.filter (fun ph => ph.id == pl.package_no)).map (fun ph =>
      ((db.shipmentLines.filter (fun sl => sl.package_no == ph.id)).map (fun sl =>
        ((db.shipments.filter (fun sh =>
            sh.id == sl.shipment_no && sh.status == Status.«open»)).map
          (fun _ => pl.quantity)).sum)).sum)).sum)).sum

/-- `stock_row.quantity_on_hand if stock_row else 0`. -/
def onHand (db : DB) (iid : Int) : Int :=
  match findStock db iid with
  | some st => st.quantity_on_hand
  | none => 0

/-- Replace the first list element satisfying `p` by its image under `f`
(models mutating the single ORM object returned by `scalar_one_or_none`). -/
def updateFirst (p : α → Bool) (f : α → α) : List α → List α
  | [] => []
  | a :: t => if p a then f a :: t else a :: updateFirst p f t

/-- Route `POST /packages/<pid>/items` (`packages_add_item`).
Inputs `iid?`/`qty?` are the parsed form fields `item_id`/`quantity`
(`none` = `ValueError` in `int(...)`).  Missing package and the edit-lock
both `abort`; parse failure, `qty <= 0`, unknown item and a failed
reservation check all silently redirect (`.ok db`); otherwise the line for
`(package, item)` is incremented if present, else inserted with
`line_no = MAX+1` over the package's lines. -/
def packages_add_item (pid : Int) (iid? qty? : Option Int) (db : DB) : Except Err DB :=
  match findPackage db pid with
  | none => .error (.notFound "Package not found")
  | some pkg =>
    if pkg.status != Status.«open» || shipmentBlocks (packageShipment db pid) then
      .error (.invalidState "Package cannot be modified (shipment/pack locked)")
    else
      match iid?, qty? with
      | some iid, some qty =>
        if qty ≤ 0 then .ok db
        else
          match findItem db iid with
          | none => .ok db
          | some _ =>
            if reserved_quantity db iid + qty > onHand db iid then .ok db
            else
              match db.packageLines.find? (fun pl => pl.package_no == pid && pl.item_no == iid) with
              | some _ =>
                .ok { db with packageLines :=
                  (updateFirst (fun pl => pl.package_no == pid && pl.item_no == iid)
                    (fun pl => { pl with quantity := pl.quantity + qty }) db.packageLines) }
              | none =>
                let next_line :=
                  maxLineNo ((db.packageLines.filter (fun pl => pl.package_no == pid)).map
                    (fun pl => pl.line_no)) + 1
                .ok { db with packageLines :=
                  db.packageLines ++
                    [{ package_no := pid, line_no := next_line, item_no := iid, quantity := qty }] }
      | _, _ => .ok db

/-- Route `POST /packages/<pid>/items/<iid>/delete` (`packages_delete_item`):
missing package and the edit-lock `abort`; a missing line aborts with 404;
otherwise the found line is deleted. -/
def packages_delete_item (pid iid : Int) (db : DB) : Except Err DB :=
  match findPackage db pid with
  | none => .error (.notFound "Package not found")
  | some pkg =>
    if pkg.status != Status.«open» || shipmentBlocks (packageShipment db pid) then
      .error (.invalidState "Package cannot be modified (shipment/pack locked)")
    else
      match db.packageLines.find? (fun pl => pl.package_no == pid && pl.item_no == iid) with
      | none => .error (.notFound "Line not found")
      | some _ =>
        .ok { db with packageLines :=
          db.packageLines.eraseP (fun pl => pl.package_no == pid && pl.item_no == iid) }

/-- Route `POST /packages/<pid>/pack` (`packages_pack`): transition
`open → packed` on the package row. -/
def packages_pack (pid : Int) (db : DB) : Except Err DB :=
  match findPackage db pid with
  | none => .error (.notFound "Package not found")
  | some pkg =>
    if pkg.status != Status.«open» then .error (.invalidState "Package not open")
    else
      .ok { db with packages := db.packages.map (fun p =>
        if p.id == pid then { p with status := Status.packed } else p) }

/-! ## Derived read-model predicates

`openShip db n` says a shipment row with id `n` and status `open` exists;
`linkedOpen db pid` says package `pid` is linked (via some shipment line) to
such a shipment.  These are the spec's phrasing of the reservation scope. -/

/-- Some shipment with id `n` has status `open`. -/
def openShip (db : DB) (n : Int) : Bool :=
  db.shipments.any (fun sh => sh.id == n && sh.status == Status.«open»)

/-- Package `pid` is linked, via a `ShipmentLine`, to an open shipment. -/
def linkedOpen (db : DB) (pid : Int) : Bool :=
  db.shipmentLines.any (fun sl => sl.package_no == pid && openShip db sl.shipment_no)

/-- The reserved quantity as the spec words it: the sum of `quantity` over all
`PackageLines` of the item whose package is linked, via a `ShipmentLine`, to a
shipment whose status is `open`.  (Comparison definition for the refinement
claim about `reserved_quantity`.) -/
def reservedSpec (db : DB) (iid : Int) : Int :=
  ((db.packageLines.filter (fun pl => pl.item_no == iid && linkedOpen db pl.package_no)).map
    (fun pl => pl.quantity)).sum

/-- Total quantity of item `iid` recorded in package `pid` (observable used to
state that an addition really created or incremented a line). -/
def lineQty (db : DB) (pid iid : Int) : Int :=
  ((db.packageLines.filter (fun pl => pl.package_no == pid && pl.item_no == iid)).map
    (fun pl => pl.quantity)).sum

/-- Databases reachable from an empty transactional store via the core
operations.  Items and stock are seeded by external processes that are out of
scope, so the start state allows arbitrary contents of those two tables. -/
inductive Reachable : DB → Prop where
  | init (items : List Item) (stocks : List Stock) :
      Reachable { shipments := [], packages := [], shipmentLines := [],
                  packageLines := [], items := items, stocks := stocks }
  | create {db : DB} (uid : Int) :
      Reachable db → Reachable (shipments_create uid db)
  | addPackage {db db' : DB} (sid uid : Int) :
      Reachable db → shipments_add_package sid uid db = .ok db' → Reachable db'
  | ship {db db' : DB} (sid : Int) (sn : String) :
      Reachable db → shipments_ship sid sn db = .ok db' → Reachable db'
  | deletePackage {db db' : DB} (sid pid : Int) :
      Reachable db → shipments_delete_package sid pid db = .ok db' → Reachable db'
  | addItem {db db' : DB} (pid : Int) (iid? qty? : Option Int) :
      Reachable db → packages_add_item pid iid? qty? db = .ok db' → Reachable db'
  | deleteItem {db db' : DB} (pid iid : Int) :
      Reachable db → packages_delete_item pid iid db = .ok db' → Reachable db'
  | pack {db db' : DB} (pid : Int) :
      Reachable db → packages_pack pid db = .ok db' → Reachable db'

/-! ## List helper lemmas -/

/-- `maxLineNo` bounds every element of the list. -/
theorem le_maxLineNo {ns : List Int} {x : Int} (hx : x ∈ ns) : x ≤ maxLineNo ns := by
  induction ns with
  | nil => cases hx
  | cons a t ih =>
    simp only [maxLineNo, List.foldr_cons]
    rcases List.mem_cons.mp hx with rfl | hx'
    · exact le_max_left _ _
    · exact le_trans (ih hx') (le_max_right _ _)

/-- If the mapped keys are duplicate-free, at most one element matches any key. -/
theorem countP_key_le_one {α β : Type} [BEq β] [LawfulBEq β] (f : α → β) (l : List α)
    (h : (l.map f).Nodup) (x : β) : l.countP (fun a => f a == x) ≤ 1 := by
  induction l with
  | nil => simp [List.countP_nil]
  | cons a t ih =>
    rw [List.map_cons, List.nodup_cons] at h
    rw [List.countP_cons]
    by_cases hax : f a == x
    · have hfa : f a = x := eq_of_beq hax
      have hz : t.countP (fun b => f b == x) = 0 := by
        apply List.countP_eq_zero.mpr
        intro b hb hbx
        exact h.1 (hfa ▸ (eq_of_beq hbx) ▸ List.mem_map_of_mem f hb)
      simp [hax, hz]
    · simp only [hax]
      simpa using ih h.2

/-- Summing a function that is constant on matches, over a filter with at most
one match, yields that constant or zero. -/
theorem sum_filter_const {α : Type} (p : α → Bool) (f : α → Int) (c : Int) (l : List α)
    (hf : ∀ a ∈ l, p a = true → f a = c) (hc : l.countP p ≤ 1) :
    ((l.filter p).map f).sum = if l.any p then c else 0 := by
  induction l with
  | nil => simp
  | cons a t ih =>
    rw [List.countP_cons] at hc
    by_cases hpa : p a = true
    · have hz : t.countP p = 0 := by rw [if_pos hpa] at hc; omega
      have ht : t.filter p = [] := by
        apply List.filter_eq_nil_iff.mpr
        intro b hb hpb
        have := List.countP_eq_zero.mp hz b hb
        exact this hpb
      simp [List.filter_cons, hpa, ht, hf a (List.mem_cons_self a t) hpa, List.any_cons]
    · have hpa' : p a = false := by simp_all
      have ht := ih (fun b hb hpb => hf b (List.mem_cons_of_mem a hb) hpb) (by simpa [hpa'] using hc)
      simp [List.filter_cons, hpa', List.any_cons, ht]

/-- Summing `if q a then c else 0` over a filter by `p` with at most one
`p`-match collapses to whether some element satisfies `p && q`. -/
theorem sum_filter_ite {α : Type} (p q : α → Bool) (c : Int) (l : List α)
    (hc : l.countP p ≤ 1) :
    ((l.filter p).map (fun a => if q a then c else 0)).sum
      = if l.any (fun a => p a && q a) then c else 0 := by
  induction l with
  | nil => simp
  | cons a t ih =>
    rw [List.countP_cons] at hc
    by_cases hpa : p a = true
    · have hz : t.countP p = 0 := by rw [if_pos hpa] at hc; omega
      have ht : t.filter p = [] := by
        apply List.filter_eq_nil_iff.mpr
        intro b hb hpb
        exact (List.countP_eq_zero.mp hz b hb) hpb
      have hta : t.any (fun b => p b && q b) = false := by
        apply List.any_eq_false.mpr
        intro b hb
        simp only [Bool.and_eq_true, not_and]
        intro hpb
        exact absurd hpb (List.countP_eq_zero.mp hz b hb)
      simp [List.filter_cons, hpa, ht, List.any_cons, hta]
    · have hpa' : p a = false := by simp_all
      have ht := ih (by simpa [hpa'] using hc)
      simp [List.filter_cons, hpa', List.any_cons, ht]

/-- Pushing an `if` under the sum into the filter. -/
theorem sum_filter_push_ite {α : Type} (p q : α → Bool) (f : α → Int) (l : List α) :
    ((l.filter p).map (fun a => if q a then f a else 0)).sum
      = ((l.filter (fun a => p a && q a)).map f).sum := by
  induction l with
  | nil => simp
  | cons a t ih =>
    by_cases hpa : p a = true
    · by_cases hqa : q a = true
      · simp [List.filter_cons, hpa, hqa, ih]
      · have : q a = false := by simp_all
        simp [List.filter_cons, hpa, this, ih]
    · have : p a = false := by simp_all
      simp [List.filter_cons, this, ih]

/-! ## C1: the reservation calculator -/

/-- C1.  For every item, `reserved_quantity` (the four-way SQL join sum in
`packages_add_item`) equals the spec's description `reservedSpec`: the sum of
`quantity` over the item's `PackageLines` whose package is linked, via a
`ShipmentLine`, to a shipment with status `open`; lines of unlinked packages,
and of packages linked to a non-open shipment, contribute nothing.  The
hypotheses are the schema constraints: primary keys of `shipment_head` and
`package_head` are unique, `shipment_line.package_no` is UNIQUE, and
`package_line.package_no` is a foreign key into `package_head`. -/
theorem reserved_quantity_eq_reservedSpec (db : DB) (iid : Int)
    (hsh : (db.shipments.map (fun sh => sh.id)).Nodup)
    (hph : (db.packages.map (fun p => p.id)).Nodup)
    (hsl : (db.shipmentLines.map (fun sl => sl.package_no)).Nodup)
    (hfk : ∀ pl ∈ db.packageLines, ∃ ph ∈ db.packages, ph.id = pl.package_no) :
    reserved_quantity db iid = reservedSpec db iid := by
  unfold reserved_quantity reservedSpec
  have hmap : ∀ pl ∈ db.packageLines.filter (fun pl => pl.item_no == iid),
      ((db.packages.filter (fun ph => ph.id == pl.package_no)).map (fun ph =>
        ((db.shipmentLines.filter (fun sl => sl.package_no == ph.id)).map (fun sl =>
          ((db.shipments.filter (fun sh =>
              sh.id == sl.shipment_no && sh.status == Status.«open»)).map
            (fun _ => pl.quantity)).sum)).sum)).sum
      = if linkedOpen db pl.package_no then pl.quantity else 0 := by
    intro pl hpl
    have hinner : ∀ sl : ShipmentLine,
        ((db.shipments.filter (fun sh =>
            sh.id == sl.shipment_no && sh.status == Status.«open»)).map
          (fun _ => pl.quantity)).sum
        = if openShip db sl.shipment_no then pl.quantity else 0 := by
      intro sl
      apply sum_filter_const _ _ _ _ (fun a _ _ => rfl)
      calc db.shipments.countP (fun sh => sh.id == sl.shipment_no && sh.status == Status.«open»)
          ≤ db.shipments.countP (fun sh => sh.id == sl.shipment_no) := by
            apply List.countP_mono_left
            intro a _ h
            exact ((Bool.and_eq_true _ _).mp h).1
        _ ≤ 1 := countP_key_le_one (fun sh => sh.id) db.shipments hsh sl.shipment_no
    have hmid : ∀ ph ∈ db.packages, (ph.id == pl.package_no) = true →
        ((db.shipmentLines.filter (fun sl => sl.package_no == ph.id)).map (fun sl =>
          ((db.shipments.filter (fun sh =>
              sh.id == sl.shipment_no && sh.status == Status.«open»)).map
            (fun _ => pl.quantity)).sum)).sum
        = if linkedOpen db pl.package_no then pl.quantity else 0 := by
      intro ph _ hid
      rw [List.map_congr_left (fun sl _ => hinner sl)]
      rw [sum_filter_ite (fun sl => sl.package_no == ph.id)
            (fun sl => openShip db sl.shipment_no) pl.quantity db.shipmentLines
            (countP_key_le_one (fun sl => sl.package_no) db.shipmentLines hsl ph.id)]
      have : ph.id = pl.package_no := by simpa using hid
      rw [this]
      rfl
    rw [sum_filter_const (fun ph => ph.id == pl.package_no) _
          (if linkedOpen db pl.package_no then pl.quantity else 0) db.packages hmid
          (countP_key_le_one (fun p => p.id) db.packages hph pl.package_no)]
    have hpl' : pl ∈ db.packageLines := (List.mem_filter.mp hpl).1
    obtain ⟨ph₀, hph₀, hid₀⟩ := hfk pl hpl'
    have : db.packages.any (fun ph => ph.id == pl.package_no) = true :=
      List.any_eq_true.mpr ⟨ph₀, hph₀, by simp [hid₀]⟩
    rw [this]
    simp
  rw [List.map_congr_left hmap]
  exact sum_filter_push_ite (fun pl => pl.item_no == iid)
    (fun pl => linkedOpen db pl.package_no) (fun pl => pl.quantity) db.packageLines

/-- Witness for `reserved_quantity_eq_reservedSpec`: a concrete database with
two packages (one linked to an open shipment, one unlinked) on which both
sides evaluate and agree. -/
theorem reserved_quantity_eq_reservedSpec_witness :
    reserved_quantity
      { shipments := [⟨1, Status.«open», none, 1⟩],
        packages := [⟨1, Status.«open», none, 1⟩, ⟨2, Status.«open», none, 1⟩],
        shipmentLines := [⟨1, 1, 1⟩],
        packageLines := [⟨1, 1, 5, 4⟩, ⟨2, 1, 5, 9⟩],
        items := [⟨5, "x"⟩], stocks := [⟨5, 10⟩] } 5
    = reservedSpec
      { shipments := [⟨1, Status.«open», none, 1⟩],
        packages := [⟨1, Status.«open», none, 1⟩, ⟨2, Status.«open», none, 1⟩],
        shipmentLines := [⟨1, 1, 1⟩],
        packageLines := [⟨1, 1, 5, 4⟩, ⟨2, 1, 5, 9⟩],
        items := [⟨5, "x"⟩], stocks := [⟨5, 10⟩] } 5 :=
  reserved_quantity_eq_reservedSpec _ 5 (by decide) (by decide) (by decide) (by decide)

/-! ## C2 and C5: shipping -/

/-- C2.  For every shipment `S` with status `open`, `ship(S)` succeeds, and
afterwards `S.status = shipped` and `S.shipment_number` is set to the
generated number, and every package linked to `S` via a `ShipmentLine` has
`status = shipped` and `shipment_number` equal to `S`'s number, regardless of
its prior status — the update is an unconditional bulk overwrite (no
per-package status validation appears in the hypotheses), and the link and
line tables are untouched. -/
theorem ship_open_succeeds (db : DB) (sid : Int) (sn : String) (sh : ShipmentHead)
    (hfind : findShipment db sid = some sh)
    (hopen : sh.status = Status.«open») :
    ∃ db', shipments_ship sid sn db = .ok db' ∧
      (∀ s ∈ db'.shipments, s.id = sh.id →
        s.status = Status.shipped ∧ s.shipment_number = some sn) ∧
      (∀ p ∈ db'.packages,
        (∃ sl ∈ db.shipmentLines, sl.shipment_no = sh.id ∧ sl.package_no = p.id) →
        p.status = Status.shipped ∧ p.shipment_number = some sn) ∧
      db'.shipmentLines = db.shipmentLines ∧ db'.packageLines = db.packageLines := by
  have hne : (sh.status != Status.«open») = false := by rw [hopen]; rfl
  unfold shipments_ship
  rw [hfind]
  dsimp only
  rw [hne]
  simp only [Bool.false_eq_true, if_false]
  refine ⟨_, rfl, ?_, ?_, rfl, rfl⟩
  · intro s hs hid
    rcases List.mem_map.mp hs with ⟨s₀, hs₀, rfl⟩
    by_cases h : (s₀.id == sh.id) = true
    · simp [h]
    · simp only [h, if_false] at hid
      exact absurd hid (by simpa using h)
  · intro p hp hlink
    rcases List.mem_map.mp hp with ⟨p₀, hp₀, heq⟩
    have hid : p.id = p₀.id := by
      rw [← heq]
      by_cases h : ((((db.shipmentLines.filter (fun sl => sl.shipment_no == sh.id)).map
          (fun sl => sl.package_no)).contains p₀.id) = true)
      · rw [if_pos h]
      · rw [if_neg h]
    rcases hlink with ⟨sl, hsl, hno, hpkg⟩
    have hmem' : p₀.id ∈ (db.shipmentLines.filter
        (fun sl => sl.shipment_no == sh.id)).map (fun sl => sl.package_no) := by
      rw [← hid, ← hpkg]
      exact List.mem_map_of_mem _ (List.mem_filter.mpr ⟨hsl, by simp [hno]⟩)
    have hc : (((db.shipmentLines.filter (fun sl => sl.shipment_no == sh.id)).map
        (fun sl => sl.package_no)).contains p₀.id) = true :=
      List.elem_eq_true_of_mem hmem'
    rw [← heq, if_pos hc]
    exact ⟨rfl, rfl⟩

/-- Witness for `ship_open_succeeds`: an open shipment with one packed and one
open package, shipped with number `"SN20240101-1-101500"`. -/
theorem ship_open_succeeds_witness :
    ∃ db', shipments_ship 1 "SN20240101-1-101500"
      { shipments := [⟨1, Status.«open», none, 7⟩],
        packages := [⟨1, Status.packed, none, 7⟩, ⟨2, Status.«open», none, 7⟩],
        shipmentLines := [⟨1, 1, 1⟩, ⟨1, 2, 2⟩], packageLines := [],
        items := [], stocks := [] } = .ok db' ∧
      (∀ s ∈ db'.shipments, s.id = (1 : Int) →
        s.status = Status.shipped ∧ s.shipment_number = some "SN20240101-1-101500") ∧
      (∀ p ∈ db'.packages,
        (∃ sl ∈ [(⟨1, 1, 1⟩ : ShipmentLine), ⟨1, 2, 2⟩],
          sl.shipment_no = (1 : Int) ∧ sl.package_no = p.id) →
        p.status = Status.shipped ∧ p.shipment_number = some "SN20240101-1-101500") ∧
      db'.shipmentLines = [⟨1, 1, 1⟩, ⟨1, 2, 2⟩] ∧ db'.packageLines = [] :=
  ship_open_succeeds _ 1 "SN20240101-1-101500" ⟨1, Status.«open», none, 7⟩ rfl rfl

/-- C5.  `ship` on a shipment whose status is not `open` (in particular one
already shipped) fails with the `InvalidState` error
`"Shipment already shipped"`; since the abort happens before any write, the
returned value carries no new state — nothing is mutated. -/
theorem ship_non_open_fails (db : DB) (sid : Int) (sn : String) (sh : ShipmentHead)
    (hfind : findShipment db sid = some sh)
    (hnot : sh.status ≠ Status.«open») :
    shipments_ship sid sn db = .error (.invalidState "Shipment already shipped") := by
  have hne : (sh.status != Status.«open») = true := by
    simpa using hnot
  unfold shipments_ship
  rw [hfind]
  dsimp only
  rw [hne]
  rfl

/-- Witness for `ship_non_open_fails`: a second `ship` call on an
already-shipped shipment fails. -/
theorem ship_non_open_fails_witness :
    shipments_ship 1 "SN2"
      { shipments := [⟨1, Status.shipped, some "SN1", 7⟩],
        packages := [⟨1, Status.shipped, some "SN1", 7⟩],
        shipmentLines := [⟨1, 1, 1⟩], packageLines := [],
        items := [], stocks := [] }
    = .error (.invalidState "Shipment already shipped") :=
  ship_non_open_fails _ 1 "SN2" ⟨1, Status.shipped, some "SN1", 7⟩ rfl (by decide)

/-! ## C3: failure behaviour of `packages_add_item` -/

/-- Counterexample to C3 as stated.  The claim says a failure of the edit-lock
check makes `add_item_to_package` a *silent no-op* that "returns without
raising an error".  In the code, the edit-lock failure executes
`abort(400, "Package cannot be modified (shipment/pack locked)")`, which
raises: on a database whose package 1 exists but has status `packed`, the call
returns an `InvalidState` error, not a silent success. -/
theorem packages_add_item_locked_aborts_cex :
    packages_add_item 1 (some 1) (some 1)
      { shipments := [], packages := [⟨1, Status.packed, none, 7⟩],
        shipmentLines := [], packageLines := [],
        items := [⟨1, "a"⟩], stocks := [⟨1, 100⟩] }
    = .error (.invalidState "Package cannot be modified (shipment/pack locked)") := by
  rfl

/-- C3 (amended).  For an existing package: a failure of the edit-lock check
raises an `InvalidState` error (`abort(400, ...)`) without mutating state,
while a failure of input validation (unparseable `item_id`/`quantity`,
non-positive quantity, nonexistent item) or of the reservation check makes
the operation a silent no-op — it returns without error and without mutating
any state. -/
theorem packages_add_item_failure_modes (db : DB) (pid : Int) (pkg : PackageHead)
    (hfind : findPackage db pid = some pkg) :
    ((pkg.status != Status.«open» || shipmentBlocks (packageShipment db pid)) = true →
      ∀ iid? qty?, packages_add_item pid iid? qty? db
        = .error (.invalidState "Package cannot be modified (shipment/pack locked)")) ∧
    ((pkg.status != Status.«open» || shipmentBlocks (packageShipment db pid)) = false →
      (∀ qty?, packages_add_item pid none qty? db = .ok db) ∧
      (∀ iid?, packages_add_item pid iid? none db = .ok db) ∧
      (∀ iid qty, qty ≤ 0 → packages_add_item pid (some iid) (some qty) db = .ok db) ∧
      (∀ iid qty, findItem db iid = none →
        packages_add_item pid (some iid) (some qty) db = .ok db) ∧
      (∀ iid qty, reserved_quantity db iid + qty > onHand db iid →
        packages_add_item pid (some iid) (some qty) db = .ok db)) := by
  constructor
  · intro hlock iid? qty?
    unfold packages_add_item
    rw [hfind]
    dsimp only
    rw [hlock]
    rfl
  · intro hlock
    refine ⟨?_, ?_, ?_, ?_, ?_⟩
    · intro qty?
      unfold packages_add_item
      rw [hfind]
      dsimp only
      rw [hlock]
      cases qty? <;> rfl
    · intro iid?
      unfold packages_add_item
      rw [hfind]
      dsimp only
      rw [hlock]
      cases iid? <;> rfl
    · intro iid qty hq
      unfold packages_add_item
      rw [hfind]
      dsimp only
      rw [hlock]
      simp only [Bool.false_eq_true, if_false]
      rw [if_pos hq]
    · intro iid qty hitem
      unfold packages_add_item
      rw [hfind]
      dsimp only
      rw [hlock]
      simp only [Bool.false_eq_true, if_false]
      by_cases hq : qty ≤ 0
      · rw [if_pos hq]
      · rw [if_neg hq, hitem]
    · intro iid qty hres
      unfold packages_add_item
      rw [hfind]
      dsimp only
      rw [hlock]
      simp only [Bool.false_eq_true, if_false]
      by_cases hq : qty ≤ 0
      · rw [if_pos hq]
      · rw [if_neg hq]
        cases hit : findItem db iid with
        | none => rfl
        | some it =>
          dsimp only
          rw [if_pos hres]

/-- Witness for `packages_add_item_failure_modes`: on an unlocked open package
a non-positive quantity is silently ignored, and with the same data a locked
package aborts. -/
theorem packages_add_item_failure_modes_witness :
    packages_add_item 1 (some 1) (some (-3))
      { shipments := [], packages := [⟨1, Status.«open», none, 7⟩],
        shipmentLines := [], packageLines := [],
        items := [⟨1, "a"⟩], stocks := [⟨1, 100⟩] }
    = .ok
      { shipments := [], packages := [⟨1, Status.«open», none, 7⟩],
        shipmentLines := [], packageLines := [],
        items := [⟨1, "a"⟩], stocks := [⟨1, 100⟩] } :=
  ((packages_add_item_failure_modes
      { shipments := [], packages := [⟨1, Status.«open», none, 7⟩],
        shipmentLines := [], packageLines := [],
        items := [⟨1, "a"⟩], stocks := [⟨1, 100⟩] }
      1 ⟨1, Status.«open», none, 7⟩ rfl).2
    (by decide)).2.2.1 1 (-3) (by decide)

/-! ## Lemmas about `updateFirst` and friends -/

/-- `updateFirst` preserves length. -/
theorem length_updateFirst (p : α → Bool) (f : α → α) (l : List α) :
    (updateFirst p f l).length = l.length := by
  induction l with
  | nil => rfl
  | cons a t ih =>
    by_cases h : p a = true
    · simp [updateFirst, h]
    · simp [updateFirst, h, ih]

/-- `updateFirst` preserves every count whose predicate the update respects. -/
theorem countP_updateFirst (p : α → Bool) (f : α → α) (r : α → Bool) (l : List α)
    (hrf : ∀ a, r (f a) = r a) : (updateFirst p f l).countP r = l.countP r := by
  induction l with
  | nil => rfl
  | cons a t ih =>
    by_cases h : p a = true
    · simp [updateFirst, h, List.countP_cons, hrf]
    · simp [updateFirst, h, List.countP_cons, ih]

/-- `updateFirst` leaves the elements not satisfying `p` untouched, provided
the update does not change `p`-membership. -/
theorem filter_not_updateFirst (p : α → Bool) (f : α → α) (l : List α)
    (hpf : ∀ a, p (f a) = p a) :
    (updateFirst p f l).filter (fun a => !(p a)) = l.filter (fun a => !(p a)) := by
  induction l with
  | nil => rfl
  | cons a t ih =>
    by_cases h : p a = true
    · simp [updateFirst, h, List.filter_cons, hpf]
    · simp [updateFirst, h, List.filter_cons, ih]

/-- Updating the first `p`-element with an `f` that adds `q` to the summed
observable `g` raises the `p`-restricted sum by exactly `q`. -/
theorem sum_filter_updateFirst (p : α → Bool) (f : α → α) (g : α → Int) (q : Int)
    (l : List α) (hpf : ∀ a, p (f a) = p a) (hgf : ∀ a, g (f a) = g a + q)
    (hex : l.any p = true) :
    (((updateFirst p f l).filter p).map g).sum = ((l.filter p).map g).sum + q := by
  induction l with
  | nil => cases hex
  | cons a t ih =>
    by_cases h : p a = true
    · simp only [updateFirst, h, if_true, List.filter_cons, hpf a, List.map_cons,
        List.sum_cons, hgf a]
      ring
    · have hex' : t.any p = true := by
        rcases List.any_eq_true.mp hex with ⟨b, hb, hpb⟩
        rcases List.mem_cons.mp hb with rfl | hb'
        · exact absurd hpb h
        · exact List.any_eq_true.mpr ⟨b, hb', hpb⟩
      simp only [updateFirst, h, Bool.false_eq_true, if_false]
      rw [List.filter_cons, if_neg h, ih hex', List.filter_cons, if_neg h]

/-! ## C4: unlinked packages and the reservation check -/

/-- Counterexample to C4 as stated.  The spec scenario: open package 2,
unlinked; item 1 has `on_hand = 10`; adding `qty = 100` is claimed to succeed
because unlinked packages are excluded from reservation.  In the code only
the reserved *sum* excludes unlinked packages — the check
`reserved + qty > on_hand` applies to every package — so `0 + 100 > 10`
silently rejects the addition: the call returns with the database unchanged
(no line is created or incremented). -/
theorem packages_add_item_unlinked_over_on_hand_cex :
    packages_add_item 2 (some 1) (some 100)
      { shipments := [], packages := [⟨2, Status.«open», none, 7⟩],
        shipmentLines := [], packageLines := [],
        items := [⟨1, "a"⟩], stocks := [⟨1, 10⟩] }
    = .ok { shipments := [], packages := [⟨2, Status.«open», none, 7⟩],
            shipmentLines := [], packageLines := [],
            items := [⟨1, "a"⟩], stocks := [⟨1, 10⟩] } := by
  rfl

/-- C4 (amended).  For every open package not linked to any shipment, with an
existing item and `qty > 0`: the addition succeeds — creating or incrementing
the line, raising the package's total for the item by `qty` — exactly when
`reserved_quantity(item) + qty ≤ on_hand(item)`; otherwise it is silently
rejected even though the package is unlinked.  (The package's own lines never
contribute to `reserved_quantity`, but the on-hand check itself still
applies, so `qty = 100` against `on_hand = 10` fails.) -/
theorem packages_add_item_unlinked (db : DB) (pid iid qty : Int) (pkg : PackageHead)
    (it : Item)
    (hfind : findPackage db pid = some pkg)
    (hopen : pkg.status = Status.«open»)
    (hnolink : db.shipmentLines.find? (fun sl => sl.package_no == pid) = none)
    (hitem : findItem db iid = some it)
    (hq : 0 < qty) :
    (reserved_quantity db iid + qty > onHand db iid →
      packages_add_item pid (some iid) (some qty) db = .ok db) ∧
    (reserved_quantity db iid + qty ≤ onHand db iid →
      ∃ db', packages_add_item pid (some iid) (some qty) db = .ok db' ∧
        lineQty db' pid iid = lineQty db pid iid + qty) := by
  have hps : packageShipment db pid = none := by
    unfold packageShipment
    rw [hnolink]
  have hcond : (pkg.status != Status.«open» || shipmentBlocks (packageShipment db pid))
      = false := by
    rw [hopen, hps]
    rfl
  constructor
  · intro hres
    unfold packages_add_item
    rw [hfind]
    dsimp only
    rw [hcond]
    simp only [Bool.false_eq_true, if_false]
    rw [if_neg (by omega : ¬ qty ≤ 0), hitem]
    dsimp only
    rw [if_pos hres]
  · intro hres
    unfold packages_add_item
    rw [hfind]
    dsimp only
    rw [hcond]
    simp only [Bool.false_eq_true, if_false]
    rw [if_neg (by omega : ¬ qty ≤ 0), hitem]
    dsimp only
    rw [if_neg (by omega : ¬ (reserved_quantity db iid + qty > onHand db iid))]
    cases hfe : db.packageLines.find? (fun pl => pl.package_no == pid && pl.item_no == iid) with
    | some pl0 =>
      dsimp only
      refine ⟨_, rfl, ?_⟩
      unfold lineQty
      dsimp only
      have hp := @List.find?_some PackageLine
        (fun pl => pl.package_no == pid && pl.item_no == iid) pl0 db.packageLines hfe
      exact sum_filter_updateFirst _ _ _ qty _ (fun a => rfl) (fun a => rfl)
        (List.any_eq_true.mpr ⟨pl0, List.mem_of_find?_eq_some hfe, hp⟩)
    | none =>
      dsimp only
      refine ⟨_, rfl, ?_⟩
      unfold lineQty
      dsimp only
      rw [List.filter_append, List.map_append, List.sum_append]
      simp [List.filter_cons]

/-- Witness for `packages_add_item_unlinked`: adding qty 5 of an item with
on-hand 10 to an open unlinked package succeeds and raises its line total
from 0 to 5. -/
theorem packages_add_item_unlinked_witness :
    ∃ db', packages_add_item 2 (some 1) (some 5)
      { shipments := [], packages := [⟨2, Status.«open», none, 7⟩],
        shipmentLines := [], packageLines := [],
        items := [⟨1, "a"⟩], stocks := [⟨1, 10⟩] } = .ok db' ∧
      lineQty db' 2 1 = lineQty
        { shipments := [], packages := [⟨2, Status.«open», none, 7⟩],
          shipmentLines := [], packageLines := [],
          items := [⟨1, "a"⟩], stocks := [⟨1, 10⟩] } 2 1 + 5 :=
  (packages_add_item_unlinked
    { shipments := [], packages := [⟨2, Status.«open», none, 7⟩],
      shipmentLines := [], packageLines := [],
      items := [⟨1, "a"⟩], stocks := [⟨1, 10⟩] }
    2 1 5 ⟨2, Status.«open», none, 7⟩ ⟨1, "a"⟩ rfl rfl rfl rfl (by decide)).2 (by decide)

/-! ## C6: sequence numbers -/

/-- Counterexample to C6 as stated.  Start with open unlinked package 1
holding item 1 at `line_no = 1`.  Adding item 2 assigns `line_no = 2`;
deleting item 2 removes that line; adding item 3 computes `MAX+1 = 2` again —
the deleted sequence number 2 *is* reassigned to a later insertion,
contradicting "a deleted line_no is never reassigned". -/
theorem line_no_reuse_cex :
    packages_add_item 1 (some 2) (some 1)
      { shipments := [], packages := [⟨1, Status.«open», none, 7⟩],
        shipmentLines := [], packageLines := [⟨1, 1, 1, 1⟩],
        items := [⟨1, "a"⟩, ⟨2, "b"⟩, ⟨3, "c"⟩],
        stocks := [⟨1, 100⟩, ⟨2, 100⟩, ⟨3, 100⟩] }
    = .ok { shipments := [], packages := [⟨1, Status.«open», none, 7⟩],
            shipmentLines := [], packageLines := [⟨1, 1, 1, 1⟩, ⟨1, 2, 2, 1⟩],
            items := [⟨1, "a"⟩, ⟨2, "b"⟩, ⟨3, "c"⟩],
            stocks := [⟨1, 100⟩, ⟨2, 100⟩, ⟨3, 100⟩] } ∧
    packages_delete_item 1 2
      { shipments := [], packages := [⟨1, Status.«open», none, 7⟩],
        shipmentLines := [], packageLines := [⟨1, 1, 1, 1⟩, ⟨1, 2, 2, 1⟩],
        items := [⟨1, "a"⟩, ⟨2, "b"⟩, ⟨3, "c"⟩],
        stocks := [⟨1, 100⟩, ⟨2, 100⟩, ⟨3, 100⟩] }
    = .ok { shipments := [], packages := [⟨1, Status.«open», none, 7⟩],
            shipmentLines := [], packageLines := [⟨1, 1, 1, 1⟩],
            items := [⟨1, "a"⟩, ⟨2, "b"⟩, ⟨3, "c"⟩],
            stocks := [⟨1, 100⟩, ⟨2, 100⟩, ⟨3, 100⟩] } ∧
    packages_add_item 1 (some 3) (some 1)
      { shipments := [], packages := [⟨1, Status.«open», none, 7⟩],
        shipmentLines := [], packageLines := [⟨1, 1, 1, 1⟩],
        items := [⟨1, "a"⟩, ⟨2, "b"⟩, ⟨3, "c"⟩],
        stocks := [⟨1, 100⟩, ⟨2, 100⟩, ⟨3, 100⟩] }
    = .ok { shipments := [], packages := [⟨1, Status.«open», none, 7⟩],
            shipmentLines := [], packageLines := [⟨1, 1, 1, 1⟩, ⟨1, 2, 3, 1⟩],
            items := [⟨1, "a"⟩, ⟨2, "b"⟩, ⟨3, "c"⟩],
            stocks := [⟨1, 100⟩, ⟨2, 100⟩, ⟨3, 100⟩] } := by
  exact ⟨rfl, rfl, rfl⟩

/-- C6 (amended).  Sequence numbers are assigned at insertion as
`max(existing) + 1` (1 if none exist), both for a package's lines and for a
shipment's lines, and the new number is strictly greater than every `line_no`
currently present for that parent — so lines that coexist have distinct,
insertion-ordered numbers.  However, a deleted `line_no` that exceeded the
remaining maximum can be reassigned to a later insertion (see the
counterexample): non-reuse holds only against the *current* lines, not
against deleted ones. -/
theorem line_no_max_plus_one :
    (∀ (db : DB) (pid iid qty : Int) (pkg : PackageHead) (it : Item),
      findPackage db pid = some pkg →
      (pkg.status != Status.«open» || shipmentBlocks (packageShipment db pid)) = false →
      0 < qty → findItem db iid = some it →
      reserved_quantity db iid + qty ≤ onHand db iid →
      db.packageLines.find? (fun pl => pl.package_no == pid && pl.item_no == iid) = none →
      ∃ db', packages_add_item pid (some iid) (some qty) db = .ok db' ∧
        db'.packageLines = db.packageLines ++
          [{ package_no := pid,
             line_no := maxLineNo ((db.packageLines.filter
               (fun pl => pl.package_no == pid)).map (fun pl => pl.line_no)) + 1,
             item_no := iid, quantity := qty }] ∧
        (∀ pl ∈ db.packageLines, pl.package_no = pid →
          pl.line_no < maxLineNo ((db.packageLines.filter
            (fun pl => pl.package_no == pid)).map (fun pl => pl.line_no)) + 1)) ∧
    (∀ (db : DB) (sid uid : Int) (sh : ShipmentHead),
      findShipment db sid = some sh → sh.status = Status.«open» →
      ∃ db', shipments_add_package sid uid db = .ok db' ∧
        db'.shipmentLines = db.shipmentLines ++
          [{ shipment_no := sh.id,
             line_no := maxLineNo ((db.shipmentLines.filter
               (fun sl => sl.shipment_no == sh.id)).map (fun sl => sl.line_no)) + 1,
             package_no := freshId (db.packages.map (fun p => p.id)) }] ∧
        (∀ sl ∈ db.shipmentLines, sl.shipment_no = sh.id →
          sl.line_no < maxLineNo ((db.shipmentLines.filter
            (fun sl => sl.shipment_no == sh.id)).map (fun sl => sl.line_no)) + 1)) := by
  constructor
  · intro db pid iid qty pkg it hfind hcond hq hitem hres hfe
    unfold packages_add_item
    rw [hfind]
    dsimp only
    rw [hcond]
    simp only [Bool.false_eq_true, if_false]
    rw [if_neg (by omega : ¬ qty ≤ 0), hitem]
    dsimp only
    rw [if_neg (by omega : ¬ (reserved_quantity db iid + qty > onHand db iid)), hfe]
    refine ⟨_, rfl, rfl, ?_⟩
    intro pl hpl hpid
    have hmem : pl.line_no ∈ (db.packageLines.filter
        (fun pl => pl.package_no == pid)).map (fun pl => pl.line_no) :=
      List.mem_map_of_mem _ (List.mem_filter.mpr ⟨hpl, by simp [hpid]⟩)
    have := le_maxLineNo hmem
    omega
  · intro db sid uid sh hfind hopen
    have hne : (sh.status != Status.«open») = false := by rw [hopen]; rfl
    unfold shipments_add_package
    rw [hfind]
    dsimp only
    rw [hne]
    simp only [Bool.false_eq_true, if_false]
    refine ⟨_, rfl, rfl, ?_⟩
    intro sl hsl hsid
    have hmem : sl.line_no ∈ (db.shipmentLines.filter
        (fun sl => sl.shipment_no == sh.id)).map (fun sl => sl.line_no) :=
      List.mem_map_of_mem _ (List.mem_filter.mpr ⟨hsl, by simp [hsid]⟩)
    have := le_maxLineNo hmem
    omega

/-- Witness for `line_no_max_plus_one`: a package insert gets `line_no = 2`
after an existing line 1, and a shipment's first package link gets
`line_no = 1`. -/
theorem line_no_max_plus_one_witness :
    (∃ db', packages_add_item 1 (some 2) (some 1)
        { shipments := [], packages := [⟨1, Status.«open», none, 7⟩],
          shipmentLines := [], packageLines := [⟨1, 1, 1, 1⟩],
          items := [⟨1, "a"⟩, ⟨2, "b"⟩], stocks := [⟨1, 100⟩, ⟨2, 100⟩] } = .ok db' ∧
      db'.packageLines = [⟨1, 1, 1, 1⟩, ⟨1, 2, 2, 1⟩]) ∧
    (∃ db', shipments_add_package 1 7
        { shipments := [⟨1, Status.«open», none, 7⟩], packages := [],
          shipmentLines := [], packageLines := [], items := [], stocks := [] } = .ok db' ∧
      db'.shipmentLines = [⟨1, 1, 1⟩]) := by
  constructor
  · obtain ⟨db', h1, h2, _⟩ := line_no_max_plus_one.1
      { shipments := [], packages := [⟨1, Status.«open», none, 7⟩],
        shipmentLines := [], packageLines := [⟨1, 1, 1, 1⟩],
        items := [⟨1, "a"⟩, ⟨2, "b"⟩], stocks := [⟨1, 100⟩, ⟨2, 100⟩] }
      1 2 1 ⟨1, Status.«open», none, 7⟩ ⟨2, "b"⟩ rfl (by decide) (by decide) rfl
      (by decide) rfl
    exact ⟨db', h1, by rw [h2]; rfl⟩
  · obtain ⟨db', h1, h2, _⟩ := line_no_max_plus_one.2
      { shipments := [⟨1, Status.«open», none, 7⟩], packages := [],
        shipmentLines := [], packageLines := [], items := [], stocks := [] }
      1 7 ⟨1, Status.«open», none, 7⟩ rfl rfl
    exact ⟨db', h1, by rw [h2]; rfl⟩

/-! ## C7: upsert semantics of `packages_add_item` -/

/-- C7.  For every successful `add_item_to_package(package, item, qty)` (the
package exists and is unlocked, `qty > 0`, the item exists, and the
reservation check passes): if a `PackageLine` for `(package, item)` already
exists, its quantity is incremented by `qty`, no line is created or removed
(the table keeps its length and all other lines are untouched); otherwise
exactly one new line is appended carrying the next sequence number.  Either
way the invariant "at most one `PackageLine` per `(package, item)` pair" is
preserved. -/
theorem packages_add_item_upsert (db : DB) (pid iid qty : Int) (pkg : PackageHead)
    (it : Item)
    (hfind : findPackage db pid = some pkg)
    (hcond : (pkg.status != Status.«open» || shipmentBlocks (packageShipment db pid)) = false)
    (hq : 0 < qty)
    (hitem : findItem db iid = some it)
    (hres : reserved_quantity db iid + qty ≤ onHand db iid) :
    ∃ db', packages_add_item pid (some iid) (some qty) db = .ok db' ∧
      (∀ pl0, db.packageLines.find? (fun pl => pl.package_no == pid && pl.item_no == iid)
          = some pl0 →
        db'.packageLines.length = db.packageLines.length ∧
        lineQty db' pid iid = lineQty db pid iid + qty ∧
        db'.packageLines.filter (fun pl => !(pl.package_no == pid && pl.item_no == iid))
          = db.packageLines.filter (fun pl => !(pl.package_no == pid && pl.item_no == iid))) ∧
      (db.packageLines.find? (fun pl => pl.package_no == pid && pl.item_no == iid) = none →
        db'.packageLines = db.packageLines ++
          [{ package_no := pid,
             line_no := maxLineNo ((db.packageLines.filter
               (fun pl => pl.package_no == pid)).map (fun pl => pl.line_no)) + 1,
             item_no := iid, quantity := qty }]) ∧
      (∀ p' i', db.packageLines.countP
          (fun pl => pl.package_no == p' && pl.item_no == i') ≤ 1 →
        db'.packageLines.countP (fun pl => pl.package_no == p' && pl.item_no == i') ≤ 1) := by
  unfold packages_add_item
  rw [hfind]
  dsimp only
  rw [hcond]
  simp only [Bool.false_eq_true, if_false]
  rw [if_neg (by omega : ¬ qty ≤ 0), hitem]
  dsimp only
  rw [if_neg (by omega : ¬ (reserved_quantity db iid + qty > onHand db iid))]
  cases hfe : db.packageLines.find? (fun pl => pl.package_no == pid && pl.item_no == iid) with
  | some pl0 =>
    dsimp only
    refine ⟨_, rfl, ?_, ?_, ?_⟩
    · intro _ _
      refine ⟨length_updateFirst _ _ _, ?_, ?_⟩
      · have hp := @List.find?_some PackageLine
          (fun pl => pl.package_no == pid && pl.item_no == iid) pl0 db.packageLines hfe
        exact sum_filter_updateFirst _ _ _ qty _ (fun a => rfl) (fun a => rfl)
          (List.any_eq_true.mpr ⟨pl0, List.mem_of_find?_eq_some hfe, hp⟩)
      · exact filter_not_updateFirst _ _ _ (fun a => rfl)
    · intro hnone
      simp [hfe] at hnone
    · intro p' i' hinv
      have hcp := countP_updateFirst (fun pl => pl.package_no == pid && pl.item_no == iid)
        (fun pl => { pl with quantity := pl.quantity + qty })
        (fun pl => pl.package_no == p' && pl.item_no == i') db.packageLines (fun a => rfl)
      dsimp only
      rw [hcp]
      exact hinv
  | none =>
    dsimp only
    refine ⟨_, rfl, ?_, ?_, ?_⟩
    · intro pl0 hsome
      simp [hfe] at hsome
    · intro _
      rfl
    · intro p' i' hinv
      rw [List.countP_append]
      by_cases hkey : ((pid == p' && iid == i') = true)
      · have hzero : db.packageLines.countP
            (fun pl => pl.package_no == p' && pl.item_no == i') = 0 := by
          apply List.countP_eq_zero.mpr
          intro pl hpl
          have hno := List.find?_eq_none.mp hfe pl hpl
          have hp' : pid = p' := by simpa using (Bool.and_eq_true _ _).mp hkey |>.1
          have hi' : iid = i' := by simpa using (Bool.and_eq_true _ _).mp hkey |>.2
          intro hcontra
          apply hno
          have h1 : pl.package_no = p' := by simpa using (Bool.and_eq_true _ _).mp hcontra |>.1
          have h2 : pl.item_no = i' := by simpa using (Bool.and_eq_true _ _).mp hcontra |>.2
          simp [h1, h2, hp', hi']
        rw [hzero]
        simp [List.countP_cons, hkey]
      · have : List.countP (fun pl => pl.package_no == p' && pl.item_no == i')
            [({ package_no := pid,
                line_no := maxLineNo ((db.packageLines.filter
                  (fun pl => pl.package_no == pid)).map (fun pl => pl.line_no)) + 1,
                item_no := iid, quantity := qty } : PackageLine)] = 0 := by
          simp only [List.countP_cons, List.countP_nil]
          simpa using hkey
        rw [this]
        simpa using hinv

/-- Witness for `packages_add_item_upsert`: re-adding an item that already has
a line (qty 2) with qty 3 increments that line to 5 without creating a second
line. -/
theorem packages_add_item_upsert_witness :
    ∃ db', packages_add_item 1 (some 1) (some 3)
        { shipments := [], packages := [⟨1, Status.«open», none, 7⟩],
          shipmentLines := [], packageLines := [⟨1, 1, 1, 2⟩],
          items := [⟨1, "a"⟩], stocks := [⟨1, 10⟩] } = .ok db' ∧
      db'.packageLines.length = 1 ∧ lineQty db' 1 1 = 5 := by
  obtain ⟨db', h1, h2, _, _⟩ := packages_add_item_upsert
    { shipments := [], packages := [⟨1, Status.«open», none, 7⟩],
      shipmentLines := [], packageLines := [⟨1, 1, 1, 2⟩],
      items := [⟨1, "a"⟩], stocks := [⟨1, 10⟩] }
    1 1 3 ⟨1, Status.«open», none, 7⟩ ⟨1, "a"⟩ rfl (by decide) (by decide) rfl (by decide)
  obtain ⟨hlen, hqty, _⟩ := h2 ⟨1, 1, 1, 2⟩ rfl
  exact ⟨db', h1, by rw [hlen]; rfl, by rw [hqty]; rfl⟩

/-! ## Lemmas about `eraseP` -/

/-- Erasing the first match from a list that held at most one match leaves no
match at all. -/
theorem eraseP_no_match (p : α → Bool) (l : List α) (hc : l.countP p ≤ 1) :
    ∀ a ∈ l.eraseP p, p a = false := by
  induction l with
  | nil => intro a ha; cases ha
  | cons a t ih =>
    rw [List.countP_cons] at hc
    intro b hb
    by_cases hpa : p a = true
    · rw [if_pos hpa] at hc
      rw [List.eraseP_cons, hpa] at hb
      have hz : t.countP p = 0 := by omega
      have := List.countP_eq_zero.mp hz b (by simpa using hb)
      simpa using this
    · have hpa' : p a = false := by simp_all
      rw [List.eraseP_cons, hpa'] at hb
      rcases List.mem_cons.mp (by simpa using hb) with rfl | hb'
      · exact hpa'
      · exact ih (by omega) b hb'

/-- `eraseP` leaves the non-matching elements untouched. -/
theorem filter_not_eraseP (p : α → Bool) (l : List α) :
    (l.eraseP p).filter (fun a => !(p a)) = l.filter (fun a => !(p a)) := by
  induction l with
  | nil => rfl
  | cons a t ih =>
    by_cases hpa : p a = true
    · rw [List.eraseP_cons, hpa]
      simp [List.filter_cons, hpa]
    · have hpa' : p a = false := by simp_all
      rw [List.eraseP_cons, hpa']
      simp [List.filter_cons, hpa', ih]

/-! ## C8: removing a package from a shipment -/

/-- C8.  `remove_package_from_shipment(shipment_id, package_id)`: fails with
`InvalidState` when the shipment is not `open`; fails with the NotFound error
`"Package not linked to this shipment"` when no `ShipmentLine` links that
package to that shipment; and on success deletes both the link and the
package row itself — there is no detach-and-keep — leaving the shipment, item
and stock tables untouched.  (The count hypothesis is the schema's UNIQUE
constraint on `shipment_line.package_no`, restricted to the erased key.) -/
theorem shipments_delete_package_spec (db : DB) (sid pid : Int) (sh : ShipmentHead)
    (hfind : findShipment db sid = some sh)
    (hcount : db.shipmentLines.countP
      (fun sl => sl.shipment_no == sh.id && sl.package_no == pid) ≤ 1) :
    (sh.status ≠ Status.«open» →
      shipments_delete_package sid pid db = .error (.invalidState "Shipment is not open")) ∧
    (sh.status = Status.«open» →
      db.shipmentLines.find? (fun sl => sl.shipment_no == sh.id && sl.package_no == pid)
          = none →
      shipments_delete_package sid pid db
        = .error (.notFound "Package not linked to this shipment")) ∧
    (∀ link, sh.status = Status.«open» →
      db.shipmentLines.find? (fun sl => sl.shipment_no == sh.id && sl.package_no == pid)
          = some link →
      ∃ db', shipments_delete_package sid pid db = .ok db' ∧
        (∀ sl ∈ db'.shipmentLines, ¬(sl.shipment_no = sh.id ∧ sl.package_no = pid)) ∧
        (∀ p ∈ db'.packages, p.id ≠ pid) ∧
        db'.shipments = db.shipments ∧ db'.items = db.items ∧ db'.stocks = db.stocks) := by
  refine ⟨?_, ?_, ?_⟩
  · intro hnot
    have hne : (sh.status != Status.«open») = true := by simpa using hnot
    unfold shipments_delete_package
    rw [hfind]
    dsimp only
    rw [hne]
    rfl
  · intro hopen hnone
    have hne : (sh.status != Status.«open») = false := by rw [hopen]; rfl
    unfold shipments_delete_package
    rw [hfind]
    dsimp only
    rw [hne]
    simp only [Bool.false_eq_true, if_false]
    rw [hnone]
  · intro link hopen hsome
    have hne : (sh.status != Status.«open») = false := by rw [hopen]; rfl
    unfold shipments_delete_package
    rw [hfind]
    dsimp only
    rw [hne]
    simp only [Bool.false_eq_true, if_false]
    rw [hsome]
    refine ⟨_, rfl, ?_, ?_, rfl, rfl, rfl⟩
    · intro sl hsl hcontra
      have hfalse := eraseP_no_match _ _ hcount sl hsl
      rw [hcontra.1, hcontra.2] at hfalse
      simp at hfalse
    · intro p hp
      have := (List.mem_filter.mp hp).2
      simpa using this

/-- Witness for `shipments_delete_package_spec`: deleting linked package 1
from open shipment 1 removes both the link and the package. -/
theorem shipments_delete_package_spec_witness :
    ∃ db', shipments_delete_package 1 1
        { shipments := [⟨1, Status.«open», none, 7⟩],
          packages := [⟨1, Status.«open», none, 7⟩],
          shipmentLines := [⟨1, 1, 1⟩], packageLines := [⟨1, 1, 2, 3⟩],
          items := [⟨2, "a"⟩], stocks := [⟨2, 10⟩] } = .ok db' ∧
      (∀ sl ∈ db'.shipmentLines, ¬(sl.shipment_no = (1 : Int) ∧ sl.package_no = (1 : Int))) ∧
      (∀ p ∈ db'.packages, p.id ≠ (1 : Int)) := by
  obtain ⟨db', h1, h2, h3, _⟩ := (shipments_delete_package_spec
    { shipments := [⟨1, Status.«open», none, 7⟩],
      packages := [⟨1, Status.«open», none, 7⟩],
      shipmentLines := [⟨1, 1, 1⟩], packageLines := [⟨1, 1, 2, 3⟩],
      items := [⟨2, "a"⟩], stocks := [⟨2, 10⟩] }
    1 1 ⟨1, Status.«open», none, 7⟩ rfl (by decide)).2.2 ⟨1, 1, 1⟩ rfl rfl
  exact ⟨db', h1, h2, h3⟩

/-- Erasing the first match from a list that has one shortens it by one. -/
theorem length_eraseP_of_any (p : α → Bool) (l : List α) (h : l.any p = true) :
    (l.eraseP p).length + 1 = l.length := by
  induction l with
  | nil => cases h
  | cons a t ih =>
    by_cases hpa : p a = true
    · simp [List.eraseP_cons, hpa]
    · have hpa' : p a = false := by simp_all
      have h' : t.any p = true := by
        rcases List.any_eq_true.mp h with ⟨b, hb, hpb⟩
        rcases List.mem_cons.mp hb with rfl | hb'
        · exact absurd hpb hpa
        · exact List.any_eq_true.mpr ⟨b, hb', hpb⟩
      simp only [List.eraseP_cons, hpa', Bool.cond_false, List.length_cons]
      simpa using ih h'

/-! ## C9: removing an item line from a package -/

/-- C9.  `remove_item_from_package(package_id, item_id)` on an existing,
unlocked package: when no `PackageLine` for `(package, item)` exists it fails
with the NotFound error `"Line not found"`; when the line exists it deletes
exactly that line — the table shrinks by one, every surviving line is one of
the original line records (so in particular it keeps its original `line_no`:
no renumbering), the lines for other `(package, item)` keys are exactly
preserved, under the schema's uniqueness no `(package, item)` line remains,
and all other tables are untouched. -/
theorem packages_delete_item_spec (db : DB) (pid iid : Int) (pkg : PackageHead)
    (hfind : findPackage db pid = some pkg)
    (hcond : (pkg.status != Status.«open» || shipmentBlocks (packageShipment db pid))
      = false) :
    (db.packageLines.find? (fun pl => pl.package_no == pid && pl.item_no == iid) = none →
      packages_delete_item pid iid db = .error (.notFound "Line not found")) ∧
    (∀ ln, db.packageLines.find? (fun pl => pl.package_no == pid && pl.item_no == iid)
        = some ln →
      ∃ db', packages_delete_item pid iid db = .ok db' ∧
        db'.packageLines.length + 1 = db.packageLines.length ∧
        db'.packageLines.filter (fun pl => !(pl.package_no == pid && pl.item_no == iid))
          = db.packageLines.filter (fun pl => !(pl.package_no == pid && pl.item_no == iid)) ∧
        (∀ pl ∈ db'.packageLines, pl ∈ db.packageLines) ∧
        (db.packageLines.countP (fun pl => pl.package_no == pid && pl.item_no == iid) ≤ 1 →
          ∀ pl ∈ db'.packageLines, ¬(pl.package_no = pid ∧ pl.item_no = iid)) ∧
        db'.shipments = db.shipments ∧ db'.packages = db.packages ∧
        db'.shipmentLines = db.shipmentLines) := by
  constructor
  · intro hnone
    unfold packages_delete_item
    rw [hfind]
    dsimp only
    rw [hcond]
    simp only [Bool.false_eq_true, if_false]
    rw [hnone]
  · intro ln hsome
    unfold packages_delete_item
    rw [hfind]
    dsimp only
    rw [hcond]
    simp only [Bool.false_eq_true, if_false]
    rw [hsome]
    have hp := @List.find?_some PackageLine
      (fun pl => pl.package_no == pid && pl.item_no == iid) ln db.packageLines hsome
    have hany : db.packageLines.any
        (fun pl => pl.package_no == pid && pl.item_no == iid) = true :=
      List.any_eq_true.mpr ⟨ln, List.mem_of_find?_eq_some hsome, hp⟩
    refine ⟨_, rfl, length_eraseP_of_any _ _ hany, filter_not_eraseP _ _, ?_, ?_, rfl, rfl, rfl⟩
    · intro pl hpl
      exact (List.eraseP_sublist _).mem hpl
    · intro hcount pl hpl hcontra
      have hfalse := eraseP_no_match _ _ hcount pl hpl
      rw [hcontra.1, hcontra.2] at hfalse
      simp at hfalse

/-- Witness for `packages_delete_item_spec`: removing the single line of
item 2 from open unlinked package 1 leaves the other item's line untouched. -/
theorem packages_delete_item_spec_witness :
    ∃ db', packages_delete_item 1 2
        { shipments := [], packages := [⟨1, Status.«open», none, 7⟩],
          shipmentLines := [], packageLines := [⟨1, 1, 3, 4⟩, ⟨1, 2, 2, 5⟩],
          items := [⟨2, "a"⟩, ⟨3, "b"⟩], stocks := [⟨2, 10⟩, ⟨3, 10⟩] } = .ok db' ∧
      db'.packageLines.length + 1 = 2 ∧
      (∀ pl ∈ db'.packageLines, pl ∈ [(⟨1, 1, 3, 4⟩ : PackageLine), ⟨1, 2, 2, 5⟩]) := by
  obtain ⟨db', h1, h2, _, h4, _⟩ := (packages_delete_item_spec
    { shipments := [], packages := [⟨1, Status.«open», none, 7⟩],
      shipmentLines := [], packageLines := [⟨1, 1, 3, 4⟩, ⟨1, 2, 2, 5⟩],
      items := [⟨2, "a"⟩, ⟨3, "b"⟩], stocks := [⟨2, 10⟩, ⟨3, 10⟩] }
    1 2 ⟨1, Status.«open», none, 7⟩ rfl (by decide)).2 ⟨1, 2, 2, 5⟩ rfl
  exact ⟨db', h1, h2, h4⟩

/-! ## C10: shipment statuses over all reachable states -/

/-- `shipments_add_package` never touches the shipment table. -/
theorem shipments_of_add_package {db db' : DB} {sid uid : Int}
    (h : shipments_add_package sid uid db = .ok db') : db'.shipments = db.shipments := by
  unfold shipments_add_package at h
  repeat' split at h
  all_goals cases h
  all_goals rfl

/-- `shipments_delete_package` never touches the shipment table. -/
theorem shipments_of_delete_package {db db' : DB} {sid pid : Int}
    (h : shipments_delete_package sid pid db = .ok db') : db'.shipments = db.shipments := by
  unfold shipments_delete_package at h
  repeat' split at h
  all_goals cases h
  all_goals rfl

/-- `packages_add_item` never touches the shipment table. -/
theorem shipments_of_add_item {db db' : DB} {pid : Int} {iid? qty? : Option Int}
    (h : packages_add_item pid iid? qty? db = .ok db') : db'.shipments = db.shipments := by
  unfold packages_add_item at h
  repeat' split at h
  all_goals cases h
  all_goals rfl

/-- `packages_delete_item` never touches the shipment table. -/
theorem shipments_of_delete_item {db db' : DB} {pid iid : Int}
    (h : packages_delete_item pid iid db = .ok db') : db'.shipments = db.shipments := by
  unfold packages_delete_item at h
  repeat' split at h
  all_goals cases h
  all_goals rfl

/-- `packages_pack` never touches the shipment table. -/
theorem shipments_of_pack {db db' : DB} {pid : Int}
    (h : packages_pack pid db = .ok db') : db'.shipments = db.shipments := by
  unfold packages_pack at h
  repeat' split at h
  all_goals cases h
  all_goals rfl

/-- Every shipment row after a successful `ship` is either an original row or
has been set to `shipped`. -/
theorem shipments_of_ship {db db' : DB} {sid : Int} {sn : String}
    (h : shipments_ship sid sn db = .ok db') :
    ∀ sh ∈ db'.shipments, sh ∈ db.shipments ∨ sh.status = Status.shipped := by
  unfold shipments_ship at h
  cases hf : findShipment db sid with
  | none =>
    rw [hf] at h
    cases h
  | some sh0 =>
    rw [hf] at h
    dsimp only at h
    by_cases hs : ((sh0.status != Status.«open») = true)
    · rw [if_pos hs] at h
      cases h
    · rw [if_neg hs] at h
      cases h
      intro sh hsh
      rcases List.mem_map.mp hsh with ⟨s₀, hs₀, rfl⟩
      by_cases hc : ((s₀.id == sh0.id) = true)
      · right
        rw [if_pos hc]
      · left
        rw [if_neg hc]
        exact hs₀

/-- C10.  In every reachable database state, every `ShipmentHead` has status
`open` or `shipped` — never `packed`, even though the shared database enum
admits it.  `shipments_create` inserts the shipment with the model default
`open` (and a null `shipment_number`), `shipments_ship` is the only core
operation that changes a shipment's status (setting it, once, to `shipped`),
and no operation ever writes `packed` into the shipment table. -/
theorem reachable_shipment_status (db : DB) (hr : Reachable db) :
    ∀ sh ∈ db.shipments, sh.status = Status.«open» ∨ sh.status = Status.shipped := by
  induction hr with
  | init items stocks =>
    intro sh hsh
    cases hsh
  | create uid hr ih =>
    intro sh hsh
    simp only [shipments_create] at hsh
    rcases List.mem_append.mp hsh with h | h
    · exact ih sh h
    · rcases List.mem_singleton.mp h with rfl
      left
      rfl
  | addPackage sid uid hr heq ih =>
    intro sh hsh
    rw [shipments_of_add_package heq] at hsh
    exact ih sh hsh
  | ship sid sn hr heq ih =>
    intro sh hsh
    rcases shipments_of_ship heq sh hsh with h | h
    · exact ih sh h
    · exact Or.inr h
  | deletePackage sid pid hr heq ih =>
    intro sh hsh
    rw [shipments_of_delete_package heq] at hsh
    exact ih sh hsh
  | addItem pid iid? qty? hr heq ih =>
    intro sh hsh
    rw [shipments_of_add_item heq] at hsh
    exact ih sh hsh
  | deleteItem pid iid hr heq ih =>
    intro sh hsh
    rw [shipments_of_delete_item heq] at hsh
    exact ih sh hsh
  | pack pid hr heq ih =>
    intro sh hsh
    rw [shipments_of_pack heq] at hsh
    exact ih sh hsh

/-- Witness for `reachable_shipment_status`: the shipment created first in an
initially empty store (id 1) is `open` or `shipped`. -/
theorem reachable_shipment_status_witness :
    ({ id := 1, status := Status.«open», shipment_number := none,
       created_by := 7 } : ShipmentHead).status = Status.«open» ∨
    ({ id := 1, status := Status.«open», shipment_number := none,
       created_by := 7 } : ShipmentHead).status = Status.shipped :=
  reachable_shipment_status
    (shipments_create 7
      { shipments := [], packages := [], shipmentLines := [],
        packageLines := [], items := [], stocks := [] })
    (Reachable.create 7 (Reachable.init [] []))
    ⟨1, Status.«open», none, 7⟩ (by decide)
